import Mathlib

/-!
authentik-webfinger: the WebFinger endpoint of `main.go`.

A shallow embedding of `src/main.go`: the directory lookup `PokeAccount`, the
client constructor `NewWebFingerClient` and the handler registered for
`GET /.well-known/webfinger`, together with the parts of the Go standard
library the handler calls (`strings`, `net/url`, `net/http`, `encoding/json`).
-/

set_option maxRecDepth 8192

namespace Webfinger

/-! ## Go strings -/

/-- A Go string is a sequence of bytes; a byte is written as the character with
that code. The functions below compare elements for equality only (and, for map
keys, by code), so what is proved holds for every byte sequence. -/
abbrev GoString := List Char

/-- The literal `"acct:"` of the handler (lines 165 and 171). -/
def acctLit : GoString := ['a', 'c', 'c', 't', ':']

/-- Go `strings.HasPrefix(s, p)`: `len(s) >= len(p) && s[:len(p)] == p`. -/
def HasPrefix (s p : GoString) : Bool :=
  decide (p.length ≤ s.length) && (s.take p.length == p)

/-- Go `strings.Index(s, substr)`: the index of the first instance of `substr`
in `s`, or `-1` when there is none. -/
def Index : GoString → GoString → Int
  | [], substr => if HasPrefix [] substr then 0 else -1
  | c :: t, substr =>
    if HasPrefix (c :: t) substr then 0
    else
      let m := Index t substr
      if m < 0 then -1 else m + 1

/-- Go `utf8.RuneCountInString`, for text in which every rune is one byte. It is
used by `Count` and `explode` for an empty separator only, which the handler
never passes. -/
def RuneCountInString (s : GoString) : Nat := s.length

/-- The loop of Go `strings.Count`:
`for { i := Index(s, substr); if i == -1 { return n }; n++; s = s[i+len(substr):] }`.
The first argument bounds the number of iterations. -/
def countLoop (substr : GoString) : Nat → GoString → Nat → Nat
  | 0, _, n => n
  | fuel + 1, s, n =>
    let i := Index s substr
    if i = -1 then n
    else countLoop substr fuel (s.drop (i.toNat + substr.length)) (n + 1)

/-- Go `strings.Count(s, substr)`: the number of non-overlapping instances of
`substr` in `s`. Every iteration of the loop removes at least one byte of `s`,
so `len(s) + 1` iterations are enough (`countLoop_fuel`). -/
def Count (s substr : GoString) : Nat :=
  match substr with
  | [] => RuneCountInString s + 1
  | [c] => s.count c
  | _ => countLoop substr (s.length + 1) s 0

/-- Go `strings.explode(s, n)`: `s` cut into at most `n` runes, the last piece
taking the rest; for text in which every rune is one byte. -/
def explode (s : GoString) (n : Int) : List GoString :=
  let l := RuneCountInString s
  let n := if n < 0 ∨ n > l then l else n.toNat
  if n = 0 then []
  else (s.take (n - 1)).map (fun c => [c]) ++ [s.drop (n - 1)]

/-- The loop of Go `strings.genSplit`:
`for i < n { m := Index(s, sep); if m < 0 { break }; a[i] = s[:m+sepSave];
s = s[m+len(sep):]; i++ }; a[i] = s; return a[:i+1]`.
The first argument is `n - i`, the pieces still to cut before the last one. -/
def splitLoop (sep : GoString) (sepSave : Nat) : Nat → GoString → List GoString
  | 0, s => [s]
  | k + 1, s =>
    let m := Index s sep
    if m < 0 then [s]
    else s.take (m.toNat + sepSave) :: splitLoop sep sepSave k (s.drop (m.toNat + sep.length))

/-- Go `strings.genSplit(s, sep, sepSave, n)`. -/
def genSplit (s sep : GoString) (sepSave : Nat) (n : Int) : List GoString :=
  if n = 0 then []
  else if sep = [] then explode s n
  else
    let n := if n < 0 then (Count s sep : Int) + 1 else n
    let n := if n > (s.length : Int) + 1 then (s.length : Int) + 1 else n
    splitLoop sep sepSave (n - 1).toNat s

/-- Go `strings.SplitAfter(s, sep)`: `genSplit(s, sep, len(sep), -1)`. -/
def SplitAfter (s sep : GoString) : List GoString :=
  genSplit s sep sep.length (-1)

/-! ## Go slices and maps, `net/url`, `net/http` -/

/-- A Go slice value: the nil slice, or an allocated (possibly empty) sequence.
`encoding/json` writes the first as `null` and the second as an array. -/
inductive Slice (α : Type) where
  | nil : Slice α
  | lit (elems : List α) : Slice α
deriving DecidableEq, Repr

/-- A Go `map[string]string` value: the nil map, or an allocated map given by
its entries (keys pairwise distinct). -/
inductive StringMap where
  | nil : StringMap
  | lit (entries : List (GoString × GoString)) : StringMap
deriving DecidableEq, Repr

/-- Go `map[string][]string`, the type under both `url.Values` and
`http.Header`: the entries of the map, looked up by key. -/
abbrev MultiMap := List (GoString × List GoString)

/-- Go `url.Values`, what `request.URL.Query()` returns. -/
abbrev Values := MultiMap

/-- Go `url.Values.Has(key)`: `_, ok := v[key]; return ok`. -/
def Values.Has (v : Values) (key : GoString) : Bool :=
  (v.lookup key).isSome

/-- Go `url.Values.Get(key)`: the first value of `key`, `""` when the key has
no value. -/
def Values.Get (v : Values) (key : GoString) : GoString :=
  match v.lookup key with
  | some (first :: _) => first
  | _ => []

/-- Go `http.Header`. -/
abbrev Header := MultiMap

/-- Go `http.Header.Set(key, value)`: `h[key] = []string{value}`. The two keys
the handler sets are already in canonical MIME form, which `Set` keeps. -/
def Header.Set (h : Header) (key value : GoString) : Header :=
  (key, [value]) :: h.filter (fun kv => kv.1 != key)

/-- Go `http.Header.Get(key)`: the first value of `key`, `""` when absent. -/
def Header.Get (h : Header) (key : GoString) : GoString :=
  match h.lookup key with
  | some (first :: _) => first
  | _ => []

/-- The state of a Go `http.ResponseWriter`: the header map the handler edits
(`Header()`), whether the status line went out, and what the client has been
sent: status code, the header map as it was when the status line went out, and
the body bytes. Headers the server adds by itself (`Date`, `Content-Length`, a
sniffed `Content-Type`) are not tracked. -/
structure ResponseWriter where
  handlerHeader : Header
  wroteHeader : Bool
  status : Nat
  sentHeader : Header
  body : GoString
deriving DecidableEq, Repr

/-- The writer a handler is given: nothing set, nothing sent. -/
def ResponseWriter.fresh : ResponseWriter :=
  { handlerHeader := [], wroteHeader := false, status := 0, sentHeader := [], body := [] }

/-- Go `ResponseWriter.WriteHeader(code)`: the first call sends the status line
with a copy of the header map; later calls are ignored. -/
def ResponseWriter.WriteHeader (w : ResponseWriter) (code : Nat) : ResponseWriter :=
  if w.wroteHeader then w
  else { w with wroteHeader := true, status := code, sentHeader := w.handlerHeader }

/-- Go `http.bodyAllowedForStatus`. -/
def bodyAllowedForStatus (status : Nat) : Bool :=
  if 100 ≤ status ∧ status ≤ 199 then false
  else if status = 204 then false
  else if status = 304 then false
  else true

/-- Go `ResponseWriter.Write(data)`: sends status 200 first when no status line
went out yet, then appends `data` to the body when the status allows one. -/
def ResponseWriter.Write (w : ResponseWriter) (data : GoString) : ResponseWriter :=
  let w := if w.wroteHeader then w else w.WriteHeader 200
  if bodyAllowedForStatus w.status then { w with body := w.body ++ data } else w

/-- `writer.Header().Set(key, value)`. -/
def ResponseWriter.SetHeader (w : ResponseWriter) (key value : GoString) : ResponseWriter :=
  { w with handlerHeader := Header.Set w.handlerHeader key value }

/-- Go `http.StatusOK`. -/
def StatusOK : Nat := 200
/-- Go `http.StatusBadRequest`. -/
def StatusBadRequest : Nat := 400
/-- Go `http.StatusInternalServerError`. -/
def StatusInternalServerError : Nat := 500

/-! ## The data model of `main.go` -/

/-- `type Link struct` (line 40). -/
structure Link where
  Rel : GoString
  Href : GoString
deriving DecidableEq, Repr

/-- `type WebFingerResource struct` (line 33). -/
structure WebFingerResource where
  Subject : GoString
  Aliases : Slice GoString
  Properties : StringMap
  Links : Slice Link
deriving DecidableEq, Repr

/-- The fields of the directory client's `api.User` that `PokeAccount` reads.
`Email` is a `*string`: `none` is the nil pointer. -/
structure User where
  Email : Option GoString
  Name : GoString
  Avatar : GoString
deriving DecidableEq, Repr

/-- The fields of the directory client's `api.Configuration` that
`NewWebFingerClient` writes. -/
structure Configuration where
  Host : GoString
  Scheme : GoString
  UserAgent : GoString
  DefaultHeader : List (GoString × GoString)
deriving DecidableEq, Repr

/-- Go `Configuration.AddDefaultHeader(key, value)`: `c.DefaultHeader[key] = value`. -/
def Configuration.AddDefaultHeader (c : Configuration) (key value : GoString) : Configuration :=
  { c with DefaultHeader := (key, value) :: c.DefaultHeader.filter (fun kv => kv.1 != key) }

/-- The directory client `api.APIClient`: it keeps the configuration it was made
from; `GetConfig()` returns it. -/
structure APIClient where
  cfg : Configuration
deriving DecidableEq, Repr

/-- `APIClient.GetConfig()`. -/
def APIClient.GetConfig (c : APIClient) : Configuration := c.cfg

/-- `api.NewAPIClient(cfg)`. -/
def NewAPIClient (cfg : Configuration) : APIClient := { cfg := cfg }

/-- `type WebFingerClient struct` (line 15). -/
structure WebFingerClient where
  client : APIClient
  Application : GoString
deriving DecidableEq, Repr

/-- The request `PokeAccount` builds on line 46:
`CoreUsersList(ctx).Email(account).PageSize(1).IsActive(true)`. -/
structure UsersListRequest where
  Email : GoString
  PageSize : Nat
  IsActive : Bool
deriving DecidableEq, Repr

/-- What `PokeAccount` observes of `Execute()`: the error `err` (`none` is nil),
the text `%v` prints for the raw HTTP response `r`, and the pair
`resp.GetResultsOk()` gives. -/
structure ExecuteResult where
  err : Option GoString
  r : GoString
  users : List User
  usersOk : Bool
deriving DecidableEq, Repr

/-- The remote user directory: the answer `Execute()` gives to a request sent
with a client configuration. -/
abbrev Directory := Configuration → UsersListRequest → ExecuteResult

/-- `type config struct` (line 98). -/
structure config where
  Host : GoString
  AuthentikHost : GoString
  Token : GoString
  UserAgent : GoString
  AuthentikApplication : GoString
deriving DecidableEq, Repr

/-! ## `NewWebFingerClient` and `PokeAccount` -/

/-- `NewWebFingerClient` (line 20). `base` is what `api.NewConfiguration()`
returns. -/
def NewWebFingerClient (base : Configuration) (host token userAgent application : GoString) :
    WebFingerClient :=
  let cfg := base
  let cfg := { cfg with Host := host }
  let cfg := { cfg with Scheme := "https".toList }
  let cfg := { cfg with UserAgent := userAgent }
  let cfg := cfg.AddDefaultHeader "Authorization".toList ("Bearer ".toList ++ token)
  let client := NewAPIClient cfg
  { client := client, Application := application }

/-- The relation URI of the first link (line 71). -/
def issuerRel : GoString := "http://openid.net/specs/connect/1.0/issuer".toList
/-- The relation URI of the second link (line 91). -/
def avatarRel : GoString := "http://webfinger.net/rel/avatar".toList
/-- The key of the only property (line 67). -/
def nameProperty : GoString := "http://webfinger.example/ns/name".toList

/-- `WebFingerClient.PokeAccount` (line 45). The result is `none` when the call
panics (an index out of range, or the nil `Email` pointer dereferenced on line
64), `some (.error err)` for `(nil, err)` and `some (.ok res)` for `(&res, nil)`. -/
def PokeAccount (dir : Directory) (wf : WebFingerClient) (account : GoString) :
    Option (Except GoString WebFingerResource) :=
  let res := dir wf.client.cfg { Email := account, PageSize := 1, IsActive := true }
  match res.err with
  | some err =>
    some (.error ("error when calling \x60CoreApi.CoreUsersList\x60: ".toList ++ err
      ++ ". Full HTTP response: ".toList ++ res.r))
  | none =>
    if !res.usersOk then
      some (.error "response did not contain any users".toList)
    else if res.users.length = 0 then
      some (.error "could not find account".toList)
    else
      match res.users[0]? with
      | none => none
      | some user =>
        match user.Email with
        | none => none
        | some email =>
          some (.ok
            { Subject := "acct:".toList ++ email
              Aliases := Slice.lit []
              Properties := StringMap.lit [(nameProperty, user.Name)]
              Links := Slice.lit
                [ { Rel := issuerRel
                    Href := "https://".toList ++ wf.client.GetConfig.Host
                      ++ "/application/o/".toList ++ wf.Application ++ "/".toList },
                  { Rel := avatarRel
                    Href := user.Avatar } ] })

/-! ## `json.Marshal` of a `WebFingerResource` -/

/-- Byte-wise `<` on strings, the order in which `encoding/json` writes the
keys of a map. -/
def keyLess : GoString → GoString → Bool
  | [], [] => false
  | [], _ :: _ => true
  | _ :: _, [] => false
  | a :: s, b :: t => decide (a.toNat < b.toNat) || (a == b && keyLess s t)

/-- One step of sorting map entries by key. -/
def insertEntry (e : GoString × GoString) : List (GoString × GoString) → List (GoString × GoString)
  | [] => [e]
  | x :: xs => if keyLess e.1 x.1 then e :: x :: xs else x :: insertEntry e xs

/-- The entries of a map in the order of their keys. -/
def sortEntries (es : List (GoString × GoString)) : List (GoString × GoString) :=
  es.foldr insertEntry []

/-- The encodings of the elements of an array or object, separated by commas. -/
def commaJoin (parts : List GoString) : GoString :=
  List.intercalate [','] parts

/-- The JSON encoding of a `[]string`. `quote` is the string encoder of
`encoding/json` (quotes and escapes). -/
def marshalStrings (quote : GoString → GoString) : Slice GoString → GoString
  | .nil => "null".toList
  | .lit xs => "[".toList ++ commaJoin (xs.map quote) ++ "]".toList

/-- The JSON encoding of a `map[string]string`: keys in sorted order. -/
def marshalMap (quote : GoString → GoString) : StringMap → GoString
  | .nil => "null".toList
  | .lit es =>
    "\x7b".toList
      ++ commaJoin ((sortEntries es).map (fun kv => quote kv.1 ++ ":".toList ++ quote kv.2))
      ++ "\x7d".toList

/-- The JSON encoding of a `Link`, keys from the struct tags `rel`, `href`. -/
def marshalLink (quote : GoString → GoString) (l : Link) : GoString :=
  "\x7b\"rel\":".toList ++ quote l.Rel ++ ",\"href\":".toList ++ quote l.Href ++ "\x7d".toList

/-- The JSON encoding of a `[]Link`. -/
def marshalLinks (quote : GoString → GoString) : Slice Link → GoString
  | .nil => "null".toList
  | .lit ls => "[".toList ++ commaJoin (ls.map (marshalLink quote)) ++ "]".toList

/-- Go `json.Marshal` at the type `*WebFingerResource`: an object with the keys
of the struct tags `subject`, `aliases`, `properties`, `links`, in field order.
Strings, string slices, string maps and structs of these always encode, so the
result is never an error. -/
def Marshal (quote : GoString → GoString) (v : WebFingerResource) : Except GoString GoString :=
  .ok ("\x7b\"subject\":".toList ++ quote v.Subject
    ++ ",\"aliases\":".toList ++ marshalStrings quote v.Aliases
    ++ ",\"properties\":".toList ++ marshalMap quote v.Properties
    ++ ",\"links\":".toList ++ marshalLinks quote v.Links
    ++ "\x7d".toList)

/-! ## The handler of `GET /.well-known/webfinger` -/

/-- What a run of the handler acts on: the response writer and the lines given
to the standard logger (the message only, without the logger's time stamp). -/
structure HandlerState where
  writer : ResponseWriter
  logged : List GoString
deriving DecidableEq, Repr

/-- The name of the query parameter (lines 158 and 164). -/
def resourceKey : GoString := "resource".toList

/-- The client `main` builds on line 148 from the configuration. -/
def mainClient (base : Configuration) (cfg : config) : WebFingerClient :=
  NewWebFingerClient base cfg.AuthentikHost cfg.Token cfg.UserAgent cfg.AuthentikApplication

/-- The function `main` registers on line 155, run on the parsed query
`request.URL.Query()`. The result is `none` when the handler panics. -/
def handler (quote : GoString → GoString) (dir : Directory) (client : WebFingerClient)
    (query : Values) (st : HandlerState) : Option HandlerState :=
  if !(Values.Has query resourceKey) then
    let writer := st.writer.WriteHeader StatusBadRequest
    let writer := writer.Write "resource not found in query".toList
    some { st with writer := writer }
  else
    let resource := Values.Get query resourceKey
    if !( HasPrefix resource acctLit) then
      let writer := st.writer.WriteHeader StatusBadRequest
      let writer := writer.Write "resource does not have acct: prefix".toList
      some { st with writer := writer }
    else
      match (SplitAfter resource acctLit)[1]? with
      | none => none
      | some acct =>
        match PokeAccount dir client acct with
        | none => none
        | some (.error err) =>
          some { writer := st.writer.WriteHeader StatusInternalServerError
                 logged := st.logged ++
                   ["Error when trying to fetch webfinger data: ".toList ++ err ++ ['\n']] }
        | some (.ok webfinger) =>
          match Marshal quote webfinger with
          | .error err =>
            some { writer := st.writer.WriteHeader StatusInternalServerError
                   logged := st.logged ++ ["Could not marshal webfinger: ".toList ++ err] }
          | .ok bytes =>
            let writer := st.writer.SetHeader "Content-Type".toList "application/jrd+json".toList
            let writer := writer.SetHeader "Access-Control-Allow-Origin".toList "*".toList
            let writer := writer.WriteHeader StatusOK
            let writer := writer.Write bytes
            some { st with writer := writer }

/-! ## Reference definitions -/

/-- A sample query: the single parameter `resource` with the given value. -/
def resourceQuery (value : GoString) : Values := [(resourceKey, [value])]

/-- A sample user record. -/
def alice : User :=
  { Email := some "alice@example.com".toList
    Name := "Alice A".toList
    Avatar := "https://cdn/x.png".toList }

/-- A sample directory: every request is answered with the user `alice` and a
second record without an email. -/
def aliceDirectory : Directory := fun _ _ =>
  { err := none, r := [], usersOk := true
    users := [alice, { Email := none, Name := [], Avatar := [] }] }

/-- A sample directory whose call fails with a transport error. -/
def downDirectory : Directory := fun _ _ =>
  { err := some "connection refused".toList, r := "<nil>".toList, usersOk := false, users := [] }

/-- A sample directory whose call fails with an error that names the requested
email. -/
def reportingDirectory : Directory := fun _ req =>
  { err := some ("no user ".toList ++ req.Email), r := "<nil>".toList
    usersOk := false, users := [] }

/-- A sample configuration. -/
def sampleConfig : config :=
  { Host := ":8080".toList
    AuthentikHost := "id.example".toList
    Token := "secret".toList
    UserAgent := "webfinger".toList
    AuthentikApplication := "app".toList }

/-- A sample result of `api.NewConfiguration()`. -/
def baseConfiguration : Configuration :=
  { Host := [], Scheme := [], UserAgent := "OpenAPI-Generator".toList, DefaultHeader := [] }

/-- The resource `PokeAccount` builds from `alice` for a client of the sample
configuration. -/
def aliceResource : WebFingerResource :=
  { Subject := "acct:alice@example.com".toList
    Aliases := Slice.lit []
    Properties := StringMap.lit [("http://webfinger.example/ns/name".toList, "Alice A".toList)]
    Links := Slice.lit
      [ { Rel := "http://openid.net/specs/connect/1.0/issuer".toList
          Href := "https://id.example/application/o/app/".toList },
        { Rel := "http://webfinger.net/rel/avatar".toList
          Href := "https://cdn/x.png".toList } ] }

/-- A sample string encoder: quotes without escapes, as `encoding/json` does for
text that needs none. -/
def plainQuote (s : GoString) : GoString := ['"'] ++ s ++ ['"']

/-! ## Lemmas on the string functions -/

theorem HasPrefix_iff (s p : GoString) : HasPrefix s p = true ↔ ∃ t, s = p ++ t := by
  unfold HasPrefix
  constructor
  · intro h
    simp only [Bool.and_eq_true, decide_eq_true_eq, beq_iff_eq] at h
    exact ⟨s.drop p.length, (List.take_append_drop p.length s).symm.trans (by rw [h.2])⟩
  · rintro ⟨t, rfl⟩
    simp

theorem HasPrefix_nil_left (sep : GoString) (hsep : sep ≠ []) : HasPrefix [] sep = false := by
  cases sep with
  | nil => exact absurd rfl hsep
  | cons c t => simp [HasPrefix]

theorem Index_ge (s sep : GoString) : -1 ≤ Index s sep := by
  induction s with
  | nil => unfold Index; split <;> omega
  | cons c t ih =>
    unfold Index
    split
    · omega
    · simp only
      split <;> omega

theorem Index_of_HasPrefix (s sep : GoString) (h : HasPrefix s sep = true) : Index s sep = 0 := by
  cases s <;> simp [Index, h]

theorem Index_nil (sep : GoString) (hsep : sep ≠ []) : Index [] sep = -1 := by
  simp [Index, HasPrefix_nil_left sep hsep]

theorem le_countLoop (sep : GoString) :
    ∀ (fuel : Nat) (s : GoString) (n : Nat), n ≤ countLoop sep fuel s n := by
  intro fuel
  induction fuel with
  | zero => intro s n; simp [countLoop]
  | succ f ih =>
    intro s n
    unfold countLoop
    simp only
    split
    · exact Nat.le_refl n
    · exact Nat.le_trans (Nat.le_succ n) (ih _ _)

/-- The bound on the iterations of `Count` is never reached: with a non-empty
separator, any two bounds above `len(s)` give the same count. -/
theorem countLoop_fuel (sep : GoString) (hsep : sep ≠ []) :
    ∀ (f f' : Nat) (s : GoString) (n : Nat), s.length < f → s.length < f' →
      countLoop sep f s n = countLoop sep f' s n := by
  intro f
  induction f with
  | zero => intro f' s n h; omega
  | succ f ih =>
    intro f' s n h h'
    cases f' with
    | zero => omega
    | succ f' =>
      unfold countLoop
      simp only
      split
      · rfl
      · rename_i hi
        have hs : s ≠ [] := by
          rintro rfl
          exact hi (Index_nil sep hsep)
        have hpos : 0 < s.length := List.length_pos.mpr hs
        have hsl : 0 < sep.length := List.length_pos.mpr hsep
        apply ih
        · simp only [List.length_drop]; omega
        · simp only [List.length_drop]; omega

theorem splitLoop_succ (sep : GoString) (sepSave k : Nat) (s : GoString) :
    splitLoop sep sepSave (k + 1) s
      = if Index s sep < 0 then [s]
        else s.take ((Index s sep).toNat + sepSave)
          :: splitLoop sep sepSave k (s.drop ((Index s sep).toNat + sep.length)) := rfl

theorem splitLoop_ne_nil (sep : GoString) (sepSave k : Nat) (s : GoString) :
    splitLoop sep sepSave k s ≠ [] := by
  cases k with
  | zero => simp [splitLoop]
  | succ k =>
    unfold splitLoop
    simp only
    split <;> simp

theorem splitLoop_head (sep : GoString) (sepSave k : Nat) (s : GoString)
    (h : Index s sep = -1) : splitLoop sep sepSave k s = [s] := by
  cases k with
  | zero => simp [splitLoop]
  | succ k => simp [splitLoop, h]

theorem Count_acct_pos (t : GoString) : 1 ≤ Count (acctLit ++ t) acctLit := by
  have hidx : Index (acctLit ++ t) acctLit = 0 :=
    Index_of_HasPrefix _ _ ((HasPrefix_iff _ _).mpr ⟨t, rfl⟩)
  have h0 : Count (acctLit ++ t) acctLit
      = countLoop acctLit ((acctLit ++ t).length + 1) (acctLit ++ t) 0 := rfl
  rw [h0]
  unfold countLoop
  simp only [hidx]
  exact le_countLoop _ _ _ _

theorem Count_acct_two (t : GoString) (h : Index t acctLit ≠ -1) :
    2 ≤ Count (acctLit ++ t) acctLit := by
  have hidx : Index (acctLit ++ t) acctLit = 0 :=
    Index_of_HasPrefix _ _ ((HasPrefix_iff _ _).mpr ⟨t, rfl⟩)
  have h0 : Count (acctLit ++ t) acctLit
      = countLoop acctLit ((t.length + 4) + 1 + 1) (acctLit ++ t) 0 := by
    have hlen : (acctLit ++ t).length + 1 = (t.length + 4) + 1 + 1 := by simp [acctLit]
    rw [← hlen]
    rfl
  have hdrop : List.drop ((0 : Int).toNat + acctLit.length) (acctLit ++ t) = t := by
    simp [acctLit]
  rw [h0]
  unfold countLoop
  simp only [hidx, hdrop]
  unfold countLoop
  simp only [h, if_false]
  exact le_countLoop _ _ _ _

/-- The pieces `strings.SplitAfter` cuts from a resource that starts with
`acct:`: the leading `acct:`, then the pieces of the rest, of which all but the
last number `min(Count, len) - 1`. -/
theorem SplitAfter_acct (t : GoString) :
    SplitAfter (acctLit ++ t) acctLit
      = acctLit :: splitLoop acctLit 5
          (min (Count (acctLit ++ t) acctLit) (acctLit ++ t).length - 1) t := by
  have hidx : Index (acctLit ++ t) acctLit = 0 :=
    Index_of_HasPrefix _ _ ((HasPrefix_iff _ _).mpr ⟨t, rfl⟩)
  have hcount := Count_acct_pos t
  have hlen : (acctLit ++ t).length = t.length + 5 := by simp [acctLit]
  have hk : ((if ((Count (acctLit ++ t) acctLit : Nat) : Int) + 1
        > ((acctLit ++ t).length : Int) + 1
      then ((acctLit ++ t).length : Int) + 1
      else ((Count (acctLit ++ t) acctLit : Nat) : Int) + 1) - 1).toNat
      = (min (Count (acctLit ++ t) acctLit) (acctLit ++ t).length - 1) + 1 := by
    rw [hlen]
    split <;> omega
  have hne : acctLit ≠ [] := by simp [acctLit]
  unfold SplitAfter genSplit
  simp only [hne, if_false, show ((-1 : Int) = 0) = False from by simp,
    show ((-1 : Int) < 0) = True from by simp, if_true]
  rw [hk, splitLoop_succ, hidx]
  simp [acctLit]

/-- The account extraction of line 171 on a resource that passed the check of
line 165: the first piece is the leading `acct:`, the others are cut from the
rest of the resource. -/
theorem SplitAfter_of_HasPrefix (s : GoString) (h : HasPrefix s acctLit = true) :
    ∃ k, SplitAfter s acctLit = acctLit :: splitLoop acctLit 5 k (s.drop 5) := by
  obtain ⟨t, rfl⟩ := (HasPrefix_iff s acctLit).mp h
  have hdrop : List.drop 5 (acctLit ++ t) = t := by simp [acctLit]
  rw [hdrop]
  exact ⟨_, SplitAfter_acct t⟩

/-- The account of line 171 for every resource `acct:` + `rest`: the whole of
`rest` when `acct:` does not occur in it, and otherwise `rest` up to and
including its first `acct:`. -/
theorem account_of_acct_append (rest : GoString) :
    (SplitAfter (acctLit ++ rest) acctLit)[1]?
      = some (if Index rest acctLit < 0 then rest
          else rest.take ((Index rest acctLit).toNat + 5)) := by
  rw [SplitAfter_acct rest]
  by_cases hneg : Index rest acctLit < 0
  · have hidx : Index rest acctLit = -1 := by
      have := Index_ge rest acctLit
      omega
    rw [splitLoop_head acctLit 5 _ rest hidx]
    simp [hidx]
  · have hidx : Index rest acctLit ≠ -1 := by omega
    have h2 := Count_acct_two rest hidx
    have hlen : (acctLit ++ rest).length = rest.length + 5 := by simp [acctLit]
    obtain ⟨k, hk⟩ : ∃ k, min (Count (acctLit ++ rest) acctLit) (acctLit ++ rest).length - 1
        = k + 1 := by
      have hrest : 0 < rest.length := by
        rcases rest with _ | ⟨c, r⟩
        · exact absurd (Index_nil acctLit (by simp [acctLit])) hidx
        · simp
      exact ⟨min (Count (acctLit ++ rest) acctLit) (acctLit ++ rest).length - 2, by omega⟩
    rw [hk, splitLoop_succ]
    simp [hneg]

/-! ## The account extraction (line 171) -/

/-- C9: for every resource that starts with `acct:`, `strings.SplitAfter` on
`acct:` yields at least two pieces, so the index `[1]` of line 171 is in range
and the extraction does not panic; for the resource that is exactly `acct:` the
account is the empty string. -/
theorem SplitAfter_index_one_in_range (resource : GoString)
    (h : HasPrefix resource acctLit = true) :
    2 ≤ (SplitAfter resource acctLit).length
      ∧ (∃ acct, (SplitAfter resource acctLit)[1]? = some acct)
      ∧ (resource = acctLit → (SplitAfter resource acctLit)[1]? = some []) := by
  obtain ⟨k, hk⟩ := SplitAfter_of_HasPrefix resource h
  have hne := splitLoop_ne_nil acctLit 5 k (resource.drop 5)
  refine ⟨?_, ?_, ?_⟩
  · rw [hk]
    cases hl : splitLoop acctLit 5 k (resource.drop 5) with
    | nil => exact absurd hl hne
    | cons a l => simp
  · rw [hk]
    cases hl : splitLoop acctLit 5 k (resource.drop 5) with
    | nil => exact absurd hl hne
    | cons a l => exact ⟨a, by simp⟩
  · rintro rfl
    decide

theorem SplitAfter_index_one_in_range_witness :
    HasPrefix acctLit acctLit = true
      ∧ 2 ≤ (SplitAfter acctLit acctLit).length
      ∧ (SplitAfter acctLit acctLit)[1]? = some [] :=
  ⟨by decide, (SplitAfter_index_one_in_range acctLit (by decide)).1,
    (SplitAfter_index_one_in_range acctLit (by decide)).2.2 rfl⟩

/-- C1 at the resource `acct:acct:bob@example.com`: the three pieces are
`acct:`, `acct:` and `bob@example.com`, so the account of line 171 is `acct:`,
not `acct:bob@example.com`; with a directory that reports the requested email in
its error, the line the handler logs names the account `acct:`. -/
theorem account_of_doubled_acct :
    SplitAfter "acct:acct:bob@example.com".toList acctLit
        = ["acct:".toList, "acct:".toList, "bob@example.com".toList]
      ∧ (SplitAfter "acct:acct:bob@example.com".toList acctLit)[1]? = some "acct:".toList
      ∧ (SplitAfter "acct:acct:bob@example.com".toList acctLit)[1]?
          ≠ some "acct:bob@example.com".toList
      ∧ (handler plainQuote reportingDirectory (mainClient baseConfiguration sampleConfig)
            (resourceQuery "acct:acct:bob@example.com".toList)
            { writer := ResponseWriter.fresh, logged := [] }).map (fun st => st.logged)
        = some [("Error when trying to fetch webfinger data: "
            ++ "error when calling \x60CoreApi.CoreUsersList\x60: "
            ++ "no user acct:. Full HTTP response: <nil>\n").toList] := by
  refine ⟨by decide, by decide, by decide, ?_⟩
  rfl

/-! ## Input validation (lines 156 to 169) -/

/-- C2: for every query without a parameter `resource`, whatever else it holds,
the handler answers with status 400 and the body `resource not found in query`. -/
theorem missing_resource_bad_request (quote : GoString → GoString) (dir : Directory)
    (client : WebFingerClient) (query : Values) (logged : List GoString)
    (h : Values.Has query resourceKey = false) :
    (handler quote dir client query { writer := ResponseWriter.fresh, logged := logged }).map
        (fun st => (st.writer.status, st.writer.body))
      = some (400, "resource not found in query".toList) := by
  simp [handler, h, ResponseWriter.WriteHeader, ResponseWriter.Write, ResponseWriter.fresh,
    bodyAllowedForStatus, StatusBadRequest]

theorem missing_resource_bad_request_witness :
    Values.Has [("account".toList, ["acct:alice@example.com".toList])] resourceKey = false
      ∧ (handler plainQuote aliceDirectory (mainClient baseConfiguration sampleConfig)
            [("account".toList, ["acct:alice@example.com".toList])]
            { writer := ResponseWriter.fresh, logged := [] }).map
          (fun st => (st.writer.status, st.writer.body))
        = some (400, "resource not found in query".toList) :=
  ⟨by decide, missing_resource_bad_request _ _ _ _ _ (by decide)⟩

/-- C3: for every query whose parameter `resource` is present with a value that
does not start with `acct:` (the empty value included), the handler answers with
status 400 and the body `resource does not have acct: prefix`. -/
theorem missing_acct_bad_request (quote : GoString → GoString) (dir : Directory)
    (client : WebFingerClient) (query : Values) (logged : List GoString)
    (hhas : Values.Has query resourceKey = true)
    (hpre : HasPrefix (Values.Get query resourceKey) acctLit = false) :
    (handler quote dir client query { writer := ResponseWriter.fresh, logged := logged }).map
        (fun st => (st.writer.status, st.writer.body))
      = some (400, "resource does not have acct: prefix".toList) := by
  simp [handler, hhas, hpre, ResponseWriter.WriteHeader, ResponseWriter.Write,
    ResponseWriter.fresh, bodyAllowedForStatus, StatusBadRequest]

theorem missing_acct_bad_request_witness :
    (Values.Has (resourceQuery []) resourceKey = true
      ∧ HasPrefix (Values.Get (resourceQuery []) resourceKey) acctLit = false)
      ∧ (handler plainQuote aliceDirectory (mainClient baseConfiguration sampleConfig)
            (resourceQuery []) { writer := ResponseWriter.fresh, logged := [] }).map
          (fun st => (st.writer.status, st.writer.body))
        = some (400, "resource does not have acct: prefix".toList) :=
  ⟨⟨by decide, by decide⟩, missing_acct_bad_request _ _ _ _ _ (by decide) (by decide)⟩

/-! ## The directory lookup (lines 45 to 96) -/

/-- C6: for every requested account and every directory answer without error
whose results start with a user that has an email, `PokeAccount` succeeds and
the subject is `acct:` followed by that email, whatever the requested account
and whatever results follow the first. -/
theorem PokeAccount_subject (dir : Directory) (wf : WebFingerClient) (account : GoString)
    (user : User) (others : List User) (email : GoString)
    (herr : (dir wf.client.cfg { Email := account, PageSize := 1, IsActive := true }).err = none)
    (hok : (dir wf.client.cfg { Email := account, PageSize := 1, IsActive := true }).usersOk
      = true)
    (husers : (dir wf.client.cfg { Email := account, PageSize := 1, IsActive := true }).users
      = user :: others)
    (hemail : user.Email = some email) :
    ∃ res, PokeAccount dir wf account = some (.ok res)
      ∧ res.Subject = "acct:".toList ++ email := by
  simp [PokeAccount, herr, hok, husers, hemail]

theorem PokeAccount_subject_witness :
    ∃ res, PokeAccount aliceDirectory (mainClient baseConfiguration sampleConfig)
        "ALICE@example.com".toList = some (.ok res)
      ∧ res.Subject = "acct:".toList ++ "alice@example.com".toList :=
  PokeAccount_subject aliceDirectory (mainClient baseConfiguration sampleConfig)
    "ALICE@example.com".toList alice [{ Email := none, Name := [], Avatar := [] }]
    "alice@example.com".toList rfl rfl rfl rfl

/-- What a successful `PokeAccount` returns: the call had no error, the results
start with a user that has an email, and the resource is built from that user
and the client. -/
theorem PokeAccount_ok (dir : Directory) (wf : WebFingerClient) (account : GoString)
    (res : WebFingerResource) (h : PokeAccount dir wf account = some (.ok res)) :
    ∃ user others email,
      (dir wf.client.cfg { Email := account, PageSize := 1, IsActive := true }).users
          = user :: others
        ∧ user.Email = some email
        ∧ res =
          { Subject := "acct:".toList ++ email
            Aliases := Slice.lit []
            Properties := StringMap.lit [(nameProperty, user.Name)]
            Links := Slice.lit
              [ { Rel := issuerRel
                  Href := "https://".toList ++ wf.client.cfg.Host
                    ++ "/application/o/".toList ++ wf.Application ++ "/".toList },
                { Rel := avatarRel, Href := user.Avatar } ] } := by
  unfold PokeAccount at h
  simp only at h
  split at h
  · simp at h
  · split at h
    · simp at h
    · split at h
      · simp at h
      · cases hu : (dir wf.client.cfg { Email := account, PageSize := 1, IsActive := true }).users with
        | nil => simp [hu] at h
        | cons user others =>
          cases he : user.Email with
          | none => simp [hu, he] at h
          | some email =>
            simp only [hu, List.getElem?_cons_zero, he, Option.some.injEq,
              Except.ok.injEq] at h
            exact ⟨user, others, email, rfl, he, h.symm⟩

/-- C7: for every successful `PokeAccount` call of the client `main` builds
from the configuration, the links are exactly two, in this order: the issuer
link, whose href is `https://` + AuthentikHost + `/application/o/` +
AuthentikApplication + `/` whatever the account and the user, and the avatar
link, whose href is the avatar of the first user of the results. -/
theorem PokeAccount_links (base : Configuration) (cfg : config) (dir : Directory)
    (account : GoString) (res : WebFingerResource)
    (h : PokeAccount dir (mainClient base cfg) account = some (.ok res)) :
    ∃ user others,
      (dir (mainClient base cfg).client.cfg
          { Email := account, PageSize := 1, IsActive := true }).users = user :: others
        ∧ res.Links = Slice.lit
          [ { Rel := "http://openid.net/specs/connect/1.0/issuer".toList
              Href := "https://".toList ++ cfg.AuthentikHost ++ "/application/o/".toList
                ++ cfg.AuthentikApplication ++ "/".toList },
            { Rel := "http://webfinger.net/rel/avatar".toList, Href := user.Avatar } ] := by
  obtain ⟨user, others, email, hu, _, hres⟩ := PokeAccount_ok dir _ account res h
  refine ⟨user, others, hu, ?_⟩
  rw [hres]
  rfl

theorem PokeAccount_links_witness :
    PokeAccount aliceDirectory (mainClient baseConfiguration sampleConfig)
        "bob@example.com".toList = some (.ok aliceResource)
      ∧ ∃ user others,
        (aliceDirectory (mainClient baseConfiguration sampleConfig).client.cfg
            { Email := "bob@example.com".toList, PageSize := 1, IsActive := true }).users
          = user :: others
          ∧ aliceResource.Links = Slice.lit
            [ { Rel := "http://openid.net/specs/connect/1.0/issuer".toList
                Href := "https://".toList ++ sampleConfig.AuthentikHost
                  ++ "/application/o/".toList ++ sampleConfig.AuthentikApplication
                  ++ "/".toList },
              { Rel := "http://webfinger.net/rel/avatar".toList, Href := user.Avatar } ] :=
  ⟨rfl, PokeAccount_links baseConfiguration sampleConfig aliceDirectory
    "bob@example.com".toList aliceResource rfl⟩

/-- C8: for every successful `PokeAccount` call, the aliases are the empty,
non-nil slice, which encodes as `[]`, and the properties are a map with exactly
one entry: the key `http://webfinger.example/ns/name` with the name of the first
user of the results. -/
theorem PokeAccount_aliases_properties (quote : GoString → GoString) (dir : Directory)
    (wf : WebFingerClient) (account : GoString) (res : WebFingerResource)
    (h : PokeAccount dir wf account = some (.ok res)) :
    res.Aliases = Slice.lit []
      ∧ res.Aliases ≠ Slice.nil
      ∧ marshalStrings quote res.Aliases = "[]".toList
      ∧ ∃ user others,
        (dir wf.client.cfg { Email := account, PageSize := 1, IsActive := true }).users
            = user :: others
          ∧ res.Properties
            = StringMap.lit [("http://webfinger.example/ns/name".toList, user.Name)] := by
  obtain ⟨user, others, email, hu, _, hres⟩ := PokeAccount_ok dir wf account res h
  subst hres
  exact ⟨rfl, by simp, rfl, user, others, hu, rfl⟩

theorem PokeAccount_aliases_properties_witness :
    PokeAccount aliceDirectory (mainClient baseConfiguration sampleConfig)
        "alice@example.com".toList = some (.ok aliceResource)
      ∧ aliceResource.Aliases = Slice.lit []
      ∧ aliceResource.Aliases ≠ Slice.nil
      ∧ marshalStrings plainQuote aliceResource.Aliases = "[]".toList
      ∧ ∃ user others,
        (aliceDirectory (mainClient baseConfiguration sampleConfig).client.cfg
            { Email := "alice@example.com".toList, PageSize := 1, IsActive := true }).users
          = user :: others
          ∧ aliceResource.Properties
            = StringMap.lit [("http://webfinger.example/ns/name".toList, user.Name)] :=
  ⟨rfl, PokeAccount_aliases_properties plainQuote aliceDirectory
    (mainClient baseConfiguration sampleConfig) "alice@example.com".toList aliceResource rfl⟩


/-! ## Lookup and response (lines 172 to 190) -/

/-- The three ways in which `PokeAccount` returns an error: the call reports an
error, the results are not there, or the results are empty. -/
theorem PokeAccount_error (dir : Directory) (wf : WebFingerClient) (account : GoString)
    (hfail : (dir wf.client.cfg { Email := account, PageSize := 1, IsActive := true }).err ≠ none
      ∨ (dir wf.client.cfg { Email := account, PageSize := 1, IsActive := true }).usersOk = false
      ∨ (dir wf.client.cfg { Email := account, PageSize := 1, IsActive := true }).users = []) :
    ∃ err, PokeAccount dir wf account = some (.error err) := by
  unfold PokeAccount
  simp only
  split
  · exact ⟨_, rfl⟩
  · rename_i herr
    split
    · exact ⟨_, rfl⟩
    · rename_i hok
      split
      · exact ⟨_, rfl⟩
      · rename_i hlen
        rcases hfail with h | h | h
        · exact absurd herr h
        · simp [h] at hok
        · simp [h] at hlen

/-- C4: for every request with a resource that starts with `acct:`, when the
lookup of the extracted account fails because the call reports an error, because
the results are not there, or because the results are empty, the handler answers
with status 500, no header of its own and an empty body: the same response for
the three reasons. -/
theorem lookup_failure_internal_error (quote : GoString → GoString) (dir : Directory)
    (client : WebFingerClient) (query : Values) (logged : List GoString) (acct : GoString)
    (hhas : Values.Has query resourceKey = true)
    (hpre : HasPrefix (Values.Get query resourceKey) acctLit = true)
    (hacct : (SplitAfter (Values.Get query resourceKey) acctLit)[1]? = some acct)
    (hfail : (dir client.client.cfg { Email := acct, PageSize := 1, IsActive := true }).err ≠ none
      ∨ (dir client.client.cfg { Email := acct, PageSize := 1, IsActive := true }).usersOk = false
      ∨ (dir client.client.cfg { Email := acct, PageSize := 1, IsActive := true }).users = []) :
    (handler quote dir client query { writer := ResponseWriter.fresh, logged := logged }).map
        (fun st => (st.writer.status, st.writer.sentHeader, st.writer.body))
      = some (500, [], []) := by
  obtain ⟨err, herr⟩ := PokeAccount_error dir client acct hfail
  simp [handler, hhas, hpre, hacct, herr, ResponseWriter.WriteHeader, ResponseWriter.fresh,
    StatusInternalServerError]

theorem lookup_failure_internal_error_witness :
    (Values.Has (resourceQuery "acct:alice@example.com".toList) resourceKey = true
      ∧ HasPrefix (Values.Get (resourceQuery "acct:alice@example.com".toList) resourceKey)
          acctLit = true
      ∧ (SplitAfter (Values.Get (resourceQuery "acct:alice@example.com".toList) resourceKey)
          acctLit)[1]? = some "alice@example.com".toList
      ∧ (downDirectory (mainClient baseConfiguration sampleConfig).client.cfg
          { Email := "alice@example.com".toList, PageSize := 1, IsActive := true }).err ≠ none)
      ∧ (handler plainQuote downDirectory (mainClient baseConfiguration sampleConfig)
            (resourceQuery "acct:alice@example.com".toList)
            { writer := ResponseWriter.fresh, logged := [] }).map
          (fun st => (st.writer.status, st.writer.sentHeader, st.writer.body))
        = some (500, [], []) :=
  ⟨⟨rfl, rfl, rfl, by decide⟩,
    lookup_failure_internal_error plainQuote downDirectory
      (mainClient baseConfiguration sampleConfig)
      (resourceQuery "acct:alice@example.com".toList) [] "alice@example.com".toList
      rfl rfl rfl (Or.inl (by decide))⟩

/-- C5: for every request with a resource that starts with `acct:` whose lookup
succeeds with a resource `res`, the handler answers with status 200, the header
`Content-Type: application/jrd+json`, the header `Access-Control-Allow-Origin: *`
and the body `json.Marshal(res)`: an object with the keys `subject`, `aliases`,
`properties` and `links`. Byte for byte, with `user` the first user of the
results and `email` its email, the body is
`{"subject":S,"aliases":[],"properties":{K:N},"links":[{"rel":I,"href":H},{"rel":A,"href":V}]}`
where `S`, `K`, `N`, `I`, `H`, `A`, `V` are the encoded strings `acct:` + email,
the name property key, the user's name, the issuer relation, the issuer URL, the
avatar relation and the user's avatar URL. -/
theorem lookup_success_ok (quote : GoString → GoString) (dir : Directory)
    (client : WebFingerClient) (query : Values) (logged : List GoString) (acct : GoString)
    (res : WebFingerResource)
    (hhas : Values.Has query resourceKey = true)
    (hpre : HasPrefix (Values.Get query resourceKey) acctLit = true)
    (hacct : (SplitAfter (Values.Get query resourceKey) acctLit)[1]? = some acct)
    (hres : PokeAccount dir client acct = some (.ok res)) :
    ∃ st, handler quote dir client query { writer := ResponseWriter.fresh, logged := logged }
        = some st
      ∧ st.writer.status = 200
      ∧ Header.Get st.writer.sentHeader "Content-Type".toList = "application/jrd+json".toList
      ∧ Header.Get st.writer.sentHeader "Access-Control-Allow-Origin".toList = "*".toList
      ∧ Marshal quote res = .ok st.writer.body
      ∧ st.writer.body =
        "\x7b\"subject\":".toList ++ quote res.Subject
          ++ ",\"aliases\":".toList ++ marshalStrings quote res.Aliases
          ++ ",\"properties\":".toList ++ marshalMap quote res.Properties
          ++ ",\"links\":".toList ++ marshalLinks quote res.Links
          ++ "\x7d".toList
      ∧ ∃ user others email,
        (dir client.client.cfg { Email := acct, PageSize := 1, IsActive := true }).users
            = user :: others
          ∧ user.Email = some email
          ∧ st.writer.body =
            "\x7b\"subject\":".toList ++ quote ("acct:".toList ++ email)
              ++ ",\"aliases\":[],\"properties\":\x7b".toList
              ++ quote "http://webfinger.example/ns/name".toList
              ++ ":".toList ++ quote user.Name
              ++ "\x7d,\"links\":[\x7b\"rel\":".toList
              ++ quote "http://openid.net/specs/connect/1.0/issuer".toList
              ++ ",\"href\":".toList
              ++ quote ("https://".toList ++ client.client.cfg.Host
                  ++ "/application/o/".toList ++ client.Application ++ "/".toList)
              ++ "\x7d,\x7b\"rel\":".toList
              ++ quote "http://webfinger.net/rel/avatar".toList
              ++ ",\"href\":".toList ++ quote user.Avatar
              ++ "\x7d]\x7d".toList := by
  obtain ⟨user, others, email, hu, he, hshape⟩ := PokeAccount_ok dir client acct res hres
  have hrun : handler quote dir client query { writer := ResponseWriter.fresh, logged := logged }
      = some
        { writer :=
            { handlerHeader :=
                Header.Set (Header.Set [] "Content-Type".toList "application/jrd+json".toList)
                  "Access-Control-Allow-Origin".toList "*".toList
              wroteHeader := true
              status := 200
              sentHeader :=
                Header.Set (Header.Set [] "Content-Type".toList "application/jrd+json".toList)
                  "Access-Control-Allow-Origin".toList "*".toList
              body :=
                "\x7b\"subject\":".toList ++ quote res.Subject
                  ++ ",\"aliases\":".toList ++ marshalStrings quote res.Aliases
                  ++ ",\"properties\":".toList ++ marshalMap quote res.Properties
                  ++ ",\"links\":".toList ++ marshalLinks quote res.Links
                  ++ "\x7d".toList }
          logged := logged } := by
    simp [handler, hhas, hpre, hacct, hres, Marshal, ResponseWriter.Write,
      ResponseWriter.WriteHeader, ResponseWriter.SetHeader, ResponseWriter.fresh,
      bodyAllowedForStatus, StatusOK]
  refine ⟨_, hrun, rfl, rfl, rfl, rfl, rfl, user, others, email, hu, he, ?_⟩
  subst hshape
  simp [marshalStrings, marshalMap, marshalLinks, marshalLink, commaJoin, sortEntries,
    insertEntry, nameProperty, issuerRel, avatarRel, List.intercalate]

theorem lookup_success_ok_witness :
    (Values.Has (resourceQuery "acct:alice@example.com".toList) resourceKey = true
      ∧ HasPrefix (Values.Get (resourceQuery "acct:alice@example.com".toList) resourceKey)
          acctLit = true
      ∧ (SplitAfter (Values.Get (resourceQuery "acct:alice@example.com".toList) resourceKey)
          acctLit)[1]? = some "alice@example.com".toList
      ∧ PokeAccount aliceDirectory (mainClient baseConfiguration sampleConfig)
          "alice@example.com".toList = some (.ok aliceResource))
      ∧ (∃ st, handler plainQuote aliceDirectory (mainClient baseConfiguration sampleConfig)
          (resourceQuery "acct:alice@example.com".toList)
          { writer := ResponseWriter.fresh, logged := [] } = some st
        ∧ st.writer.status = 200
        ∧ Header.Get st.writer.sentHeader "Content-Type".toList = "application/jrd+json".toList
        ∧ Header.Get st.writer.sentHeader "Access-Control-Allow-Origin".toList = "*".toList
        ∧ Marshal plainQuote aliceResource = .ok st.writer.body
        ∧ st.writer.body =
          "\x7b\"subject\":".toList ++ plainQuote aliceResource.Subject
            ++ ",\"aliases\":".toList ++ marshalStrings plainQuote aliceResource.Aliases
            ++ ",\"properties\":".toList ++ marshalMap plainQuote aliceResource.Properties
            ++ ",\"links\":".toList ++ marshalLinks plainQuote aliceResource.Links
            ++ "\x7d".toList
        ∧ ∃ user others email,
          (aliceDirectory (mainClient baseConfiguration sampleConfig).client.cfg
              { Email := "alice@example.com".toList, PageSize := 1, IsActive := true }).users
              = user :: others
            ∧ user.Email = some email
            ∧ st.writer.body =
              "\x7b\"subject\":".toList ++ plainQuote ("acct:".toList ++ email)
                ++ ",\"aliases\":[],\"properties\":\x7b".toList
                ++ plainQuote "http://webfinger.example/ns/name".toList
                ++ ":".toList ++ plainQuote user.Name
                ++ "\x7d,\"links\":[\x7b\"rel\":".toList
                ++ plainQuote "http://openid.net/specs/connect/1.0/issuer".toList
                ++ ",\"href\":".toList
                ++ plainQuote ("https://".toList
                    ++ (mainClient baseConfiguration sampleConfig).client.cfg.Host
                    ++ "/application/o/".toList
                    ++ (mainClient baseConfiguration sampleConfig).Application ++ "/".toList)
                ++ "\x7d,\x7b\"rel\":".toList
                ++ plainQuote "http://webfinger.net/rel/avatar".toList
                ++ ",\"href\":".toList ++ plainQuote user.Avatar
                ++ "\x7d]\x7d".toList)
      ∧ (handler plainQuote aliceDirectory (mainClient baseConfiguration sampleConfig)
            (resourceQuery "acct:alice@example.com".toList)
            { writer := ResponseWriter.fresh, logged := [] }).map
          (fun st => (st.writer.status, st.writer.sentHeader, st.writer.body))
        = some (200,
            [("Access-Control-Allow-Origin".toList, ["*".toList]),
              ("Content-Type".toList, ["application/jrd+json".toList])],
            ("\x7b\"subject\":\"acct:alice@example.com\",\"aliases\":[],"
              ++ "\"properties\":\x7b\"http://webfinger.example/ns/name\":\"Alice A\"\x7d,"
              ++ "\"links\":[\x7b\"rel\":\"http://openid.net/specs/connect/1.0/issuer\","
              ++ "\"href\":\"https://id.example/application/o/app/\"\x7d,"
              ++ "\x7b\"rel\":\"http://webfinger.net/rel/avatar\","
              ++ "\"href\":\"https://cdn/x.png\"\x7d]\x7d").toList) :=
  ⟨⟨rfl, rfl, rfl, rfl⟩,
    lookup_success_ok plainQuote aliceDirectory (mainClient baseConfiguration sampleConfig)
      (resourceQuery "acct:alice@example.com".toList) [] "alice@example.com".toList
      aliceResource rfl rfl rfl rfl,
    rfl⟩

end Webfinger
